import Mathlib

/-!
Verification of the dice value determination and roll-triggering logic of the
Neon Dice repository (src/physics/dice.js, src/main.js, src/graphics/textures.js),
shallowly embedded over an arbitrary linear ordered field (JS numbers idealised
as exact arithmetic; concrete claims are stated over `ℝ` or `ℚ`).
-/

namespace NeonDice

/-- A 3D vector with components `x`, `y`, `z` (THREE.Vector3 / plain `{x,y,z}` data). -/
structure Vec3 (α : Type) where
  x : α
  y : α
  z : α
  deriving DecidableEq

/-- A quaternion with components `x`, `y`, `z`, `w` (THREE.Quaternion). -/
structure Quat (α : Type) where
  x : α
  y : α
  z : α
  w : α
  deriving DecidableEq

variable {α : Type} [LinearOrderedField α]

/-- THREE.Vector3.dot: componentwise product summed. -/
def Vec3.dot (a b : Vec3 α) : α :=
  a.x * b.x + a.y * b.y + a.z * b.z

/-- THREE.Vector3.applyQuaternion (three.js r160): rotate the vector by the
unit quaternion `q`, via `t = 2 * cross(q.xyz, v)`; result `v + q.w * t + cross(q.xyz, t)`. -/
def applyQuaternion (q : Quat α) (v : Vec3 α) : Vec3 α :=
  let tx := 2 * (q.y * v.z - q.z * v.y)
  let ty := 2 * (q.z * v.x - q.x * v.z)
  let tz := 2 * (q.x * v.y - q.y * v.x)
  ⟨v.x + q.w * tx + q.y * tz - q.z * ty,
   v.y + q.w * ty + q.z * tx - q.x * tz,
   v.z + q.w * tz + q.x * ty - q.y * tx⟩

/-- dice.js line 27: `const faceNumbers = [1, 6, 2, 5, 3, 4]`
(standard dice configuration: right, left, top, bottom, front, back). -/
def faceNumbers : List ℕ := [1, 6, 2, 5, 3, 4]

/-- dice.js lines 102-109: the six local face normals checked by `getCurrentValue`,
in order right (+X), left (−X), top (+Y), bottom (−Y), front (+Z), back (−Z). -/
def normals : List (Vec3 α) :=
  [⟨1, 0, 0⟩, ⟨-1, 0, 0⟩, ⟨0, 1, 0⟩, ⟨0, -1, 0⟩, ⟨0, 0, 1⟩, ⟨0, 0, -1⟩]

/-- dice.js lines 111-117: the `normals.forEach` scan of `getCurrentValue`.
Carries the running `maxAlignment` and `faceIndex` (initially `-1` and `0`);
on each normal it computes `alignment = upVector.dot(normal)` and updates both
variables when `alignment > maxAlignment` (strict improvement). Returns the
final `faceIndex`. `idx` is the absolute index of the head of the remaining list. -/
def bestFace (up : Vec3 α) : List (Vec3 α) → ℕ → α → ℕ → ℕ
  | [], _, _, fi => fi
  | n :: rest, idx, maxA, fi =>
      if maxA < Vec3.dot up n then bestFace up rest (idx + 1) (Vec3.dot up n) idx
      else bestFace up rest (idx + 1) maxA fi

/-- dice.js lines 88-120, `getCurrentValue`: transforms the world-up vector
`(0,1,0)` by the die's quaternion (`upVector.applyQuaternion(diceRotation)`),
scans the six local face normals for the maximum dot product with that
transformed vector, and returns `faceNumbers[faceIndex]`. -/
def getCurrentValue (q : Quat α) : ℕ :=
  let upVector := applyQuaternion q ⟨0, 1, 0⟩
  faceNumbers.getD (bestFace upVector normals 0 (-1) 0) 0

/-- The alignment the scan in `getCurrentValue` computes for face index `i`:
dot product of the transformed up vector with the `i`-th local normal. -/
def faceAlignment (q : Quat α) (i : ℕ) : α :=
  Vec3.dot (applyQuaternion q ⟨0, 1, 0⟩) (normals.getD i ⟨0, 0, 0⟩)

/-- Componentwise negation of a vector (used to state which normals are opposite). -/
def Vec3.neg (v : Vec3 α) : Vec3 α := ⟨-v.x, -v.y, -v.z⟩

/-! ### isAtRest (dice.js lines 182-190)

The source reads `body.linvel().length < velocityThreshold && body.angvel().length
< angularVelocityThreshold` with both thresholds `0.1`. `body.linvel()` and
`body.angvel()` return a Rapier `Vector3` (rapier3d-compat, the library pinned in
config.js), whose class declares only the data fields `x`, `y`, `z` — there is no
`length` field, getter or inherited property, and the source does not call a
method (no parentheses). In JavaScript, accessing a missing property yields
`undefined`, and `undefined < 0.1` converts `undefined` to `NaN`, so the
comparison evaluates to `false`. The embedding models this faithfully. -/

/-- A JavaScript value as it occurs in the `isAtRest` comparison: a number or `undefined`. -/
inductive JsVal (α : Type) where
  | num (v : α)
  | undefined
  deriving DecidableEq

/-- JavaScript `<` between a value and a number: `undefined` converts to `NaN`,
and every `NaN` comparison is `false`. -/
def JsVal.ltNum : JsVal α → α → Bool
  | .num v, b => decide (v < b)
  | .undefined, _ => false

/-- Rapier's `Vector3` (rapier3d-compat math module): plain data fields `x`, `y`, `z`. -/
structure RapierVec3 (α : Type) where
  x : α
  y : α
  z : α
  deriving DecidableEq

/-- Property access `.length` on a Rapier `Vector3`: the class declares no such
field or getter, so the access evaluates to `undefined`. -/
def RapierVec3.lengthProperty (_ : RapierVec3 α) : JsVal α := .undefined

/-- dice.js `isAtRest()`: `body.linvel().length < 0.1 && body.angvel().length < 0.1`,
with the `.length` property accesses and the JS comparison semantics made explicit. -/
def isAtRest (linvel angvel : RapierVec3 α) : Bool :=
  linvel.lengthProperty.ltNum (1 / 10) && angvel.lengthProperty.ltNum (1 / 10)

/-- The settledness predicate as the spec states it (`isSettled`): modelled from
the spec's words for comparison with the code's `isAtRest`. True iff
`linearSpeed < linearThreshold` and `angularSpeed < angularThreshold`. -/
def isSettledSpec (linearSpeed angularSpeed linearThreshold angularThreshold : α) : Bool :=
  decide (linearSpeed < linearThreshold) && decide (angularSpeed < angularThreshold)

/-! ### Roll initiation (main.js lines 55-79, dice.js reset/applyImpulse/applyTorque) -/

/-- One call the per-die body of `rollDice` makes on a die controller:
`die.reset(x,y,z)`, `die.applyImpulse(x,y,z)` or `die.applyTorque(x,y,z)`. -/
inductive DiceCmd (α : Type) where
  | reset (x y z : α)
  | impulse (x y z : α)
  | torque (x y z : α)
  deriving DecidableEq

/-- Rigid-body state visible through the Rapier calls `reset` makes:
translation, linear velocity, angular velocity. -/
structure BodyState (α : Type) where
  translation : Vec3 α
  linvel : Vec3 α
  angvel : Vec3 α
  deriving DecidableEq

/-- dice.js lines 152-156, `reset(x, y, z)`: `setTranslation(x,y,z)`,
`setLinvel(0,0,0)`, `setAngvel(0,0,0)`. -/
def resetBody (_s : BodyState α) (x y z : α) : BodyState α :=
  ⟨⟨x, y, z⟩, ⟨0, 0, 0⟩, ⟨0, 0, 0⟩⟩

/-- main.js lines 55-79: the body of `rollDice` for the die at position `index`.
`r1 … r6` are the six `Math.random()` draws in source order (each in `[0,1)`):
`force = 15 + r1*3`; impulse `(-force, 5 + r2*2, -force*(0.8 + r3*0.4))`;
torque `((r4-0.5)*10, (r5-0.5)*10, (r6-0.5)*10)`; preceded by
`reset(10 + index*0.5, 8 + index*2, 10 + index*0.3)`. -/
def rollDieCmds (index : ℕ) (r1 r2 r3 r4 r5 r6 : α) : List (DiceCmd α) :=
  let offsetX := (index : α) * (1 / 2)
  let offsetZ := (index : α) * (3 / 10)
  let height := 8 + (index : α) * 2
  let force := 15 + r1 * 3
  [DiceCmd.reset (10 + offsetX) height (10 + offsetZ),
   DiceCmd.impulse (-force) (5 + r2 * 2) (-force * (8 / 10 + r3 * (4 / 10))),
   DiceCmd.torque ((r4 - 1 / 2) * 10) ((r5 - 1 / 2) * 10) ((r6 - 1 / 2) * 10)]

/-- Discriminator for `DiceCmd.reset`. -/
def DiceCmd.isReset : DiceCmd α → Bool
  | .reset _ _ _ => true
  | _ => false

/-- Discriminator for `DiceCmd.impulse`. -/
def DiceCmd.isImpulse : DiceCmd α → Bool
  | .impulse _ _ _ => true
  | _ => false

/-- Discriminator for `DiceCmd.torque`. -/
def DiceCmd.isTorque : DiceCmd α → Bool
  | .torque _ _ _ => true
  | _ => false

/-! ### getCurrentValue with its observable state made explicit (dice.js 88-120)

The function reads one non-local, `diceMesh.quaternion`; its only write targets
the local `upVector` it allocated itself. The state-passing translation makes
that explicit: the mesh state goes in, the (unchanged) mesh state comes out. -/

/-- The mutable state `getCurrentValue` can observe: the mesh's quaternion. -/
structure MeshState (α : Type) where
  quaternion : Quat α
  deriving DecidableEq

/-- dice.js `getCurrentValue` with state threading: reads `diceMesh.quaternion`,
allocates and mutates only the local `upVector`, writes no non-local, and
returns the label together with the resulting mesh state. -/
def getCurrentValueSt (s : MeshState α) : ℕ × MeshState α :=
  let diceRotation := s.quaternion
  let upVector : Vec3 α := ⟨0, 1, 0⟩
  let upVector := applyQuaternion diceRotation upVector
  (faceNumbers.getD (bestFace upVector normals 0 (-1) 0) 0, s)

/-! ### Texture cache and pip layout (src/graphics/textures.js) -/

/-- State of the texture module: the `diceFaceCache` association (the JS key
`face_${value}_${color}` is in bijection with the pair `(value, color)`, so the
key is modelled as that pair), plus an allocation counter identifying distinct
generated texture resources. -/
structure TextureState where
  cache : List ((ℕ × ℕ) × ℕ)
  nextId : ℕ
  deriving DecidableEq

/-- Lookup of a key in the cache association list (JS object property read). -/
def lookupCache (k : ℕ × ℕ) : List ((ℕ × ℕ) × ℕ) → Option ℕ
  | [] => none
  | (k', t) :: rest => if k' = k then some t else lookupCache k rest

/-- textures.js `generateDiceFaceTexture`: draws a fresh canvas and wraps it in a
new `CanvasTexture`; the new resource is modelled as a fresh allocation id. -/
def generateDiceFaceTextureRes (_value _color : ℕ) (s : TextureState) : ℕ × TextureState :=
  (s.nextId, ⟨s.cache, s.nextId + 1⟩)

/-- textures.js lines 104-120, `createDiceFaceTexture`: build the cache key from
`(value, color)`, return the cached texture when present, otherwise generate a
new texture, store it under the key and return it. -/
def createDiceFaceTexture (value color : ℕ) (s : TextureState) : ℕ × TextureState :=
  match lookupCache (value, color) s.cache with
  | some t => (t, s)
  | none =>
      let r := generateDiceFaceTextureRes value color s
      (r.1, ⟨((value, color), r.1) :: r.2.cache, r.2.nextId⟩)

/-- textures.js lines 129-212, the pip layout drawn by `generateDiceFaceTexture`
(size 256, `center = 128`, `offset = 64`): the switch on `value` draws the pip
centers for faces 1-6; the `default` branch logs a warning and draws the single
centered pip. Returns (warning logged, list of pip centers in draw order). -/
def dicePipPositions (value : α) : Bool × List (α × α) :=
  let center : α := 128
  let offset : α := 64
  if value = 1 then (false, [(center, center)])
  else if value = 2 then
    (false, [(center + offset, center - offset), (center - offset, center + offset)])
  else if value = 3 then
    (false, [(center - offset, center - offset), (center, center),
             (center + offset, center + offset)])
  else if value = 4 then
    (false, [(center - offset, center - offset), (center + offset, center - offset),
             (center - offset, center + offset), (center + offset, center + offset)])
  else if value = 5 then
    (false, [(center - offset, center - offset), (center + offset, center - offset),
             (center, center), (center - offset, center + offset),
             (center + offset, center + offset)])
  else if value = 6 then
    (false, [(center - offset, center - offset), (center - offset, center),
             (center - offset, center + offset), (center + offset, center - offset),
             (center + offset, center), (center + offset, center + offset)])
  else (true, [(center, center)])

/-- The 90° rotation about the Z axis, as a unit quaternion: (0, 0, √2/2, √2/2).
It rotates the local +X direction (the face labeled 1) exactly onto world-up. -/
noncomputable def qZRot90 : Quat ℝ := ⟨0, 0, Real.sqrt 2 / 2, Real.sqrt 2 / 2⟩

/-- The 135° rotation about the X axis, as a unit quaternion:
(√(2+√2)/2, 0, 0, √(2−√2)/2). It sends the transformed up vector to
(0, −√2/2, √2/2), exactly between the bottom (−Y) and front (+Z) faces. -/
noncomputable def qTieX135 : Quat ℝ :=
  ⟨Real.sqrt (2 + Real.sqrt 2) / 2, 0, 0, Real.sqrt (2 - Real.sqrt 2) / 2⟩

/-! ## Theorems -/

/-- C2: code bug in dice.js `isAtRest` — the source compares the nonexistent
`.length` property of the Rapier velocity vectors (which evaluates to
`undefined`, and `undefined < 0.1` is `false` in JS) against the thresholds, so
the predicate returns `false` even for a motionless die with zero linear and
zero angular velocity, where the claimed `isSettled(0, 0, 0.1, 0.1)` is `true`. -/
theorem isAtRest_zero_velocity_code_bug :
    isAtRest (α := ℚ) ⟨0, 0, 0⟩ ⟨0, 0, 0⟩ = false ∧
    (∀ lv av : RapierVec3 ℚ, isAtRest lv av = false) ∧
    isSettledSpec (0 : ℚ) 0 (1 / 10) (1 / 10) = true ∧
    isSettledSpec (1 / 20 : ℚ) (1 / 20) (1 / 10) (1 / 10) = true ∧
    isSettledSpec (1 / 5 : ℚ) (1 / 20) (1 / 10) (1 / 10) = false ∧
    isSettledSpec (1 / 20 : ℚ) (1 / 5) (1 / 10) (1 / 10) = false := by
  refine ⟨rfl, fun lv av => rfl, ?_, ?_, ?_, ?_⟩ <;> norm_num [isSettledSpec]

/-- Helper: the scan of `getCurrentValue` never produces an index outside the
range it walks — if the carried index is below `n` and the walk ends before
`n`, the result is below `n`. -/
theorem bestFace_lt (up : Vec3 ℝ) (n : ℕ) :
    ∀ (l : List (Vec3 ℝ)) (idx : ℕ) (maxA : ℝ) (fi : ℕ),
      fi < n → idx + l.length ≤ n → bestFace up l idx maxA fi < n := by
  intro l
  induction l with
  | nil => intro idx maxA fi hfi _; simpa [bestFace] using hfi
  | cons head tail ih =>
      intro idx maxA fi hfi hlen
      simp only [List.length_cons] at hlen
      rw [bestFace]
      split_ifs
      · exact ih (idx + 1) _ idx (by omega) (by omega)
      · exact ih (idx + 1) _ fi hfi (by omega)

/-- C4: `getCurrentValue` is total and always lands on an entry of the
six-element `faceNumbers` table: for every quaternion (in particular every unit
quaternion) it returns exactly one label, and that label is in {1,2,3,4,5,6}. -/
theorem getCurrentValue_total_in_range (q : Quat ℝ) :
    getCurrentValue q ∈ ({1, 2, 3, 4, 5, 6} : Finset ℕ) := by
  have h : bestFace (applyQuaternion q ⟨0, 1, 0⟩) normals 0 (-1) 0 < 6 :=
    bestFace_lt _ 6 normals 0 (-1) 0 (by norm_num) (by simp [normals])
  show faceNumbers.getD (bestFace (applyQuaternion q ⟨0, 1, 0⟩) normals 0 (-1) 0) 0 ∈ _
  interval_cases h' : (bestFace (applyQuaternion q ⟨0, 1, 0⟩) normals 0 (-1) 0) <;> decide

/-- C5: the fixed face assignment `faceNumbers = [1,6,2,5,3,4]` over the normals
`[+X,−X,+Y,−Y,+Z,−Z]` assigns exactly one label to each of the six axis-aligned
directions (six distinct normals, six distinct labels covering {1,…,6}), and any
two faces with opposite normals carry labels summing to 7. -/
theorem faceNumbers_opposite_sum_seven :
    faceNumbers.Nodup ∧
    faceNumbers.toFinset = ({1, 2, 3, 4, 5, 6} : Finset ℕ) ∧
    (normals (α := ℚ)).Nodup ∧
    (∀ i j : Fin 6,
      (normals (α := ℚ)).getD (i : ℕ) ⟨0, 0, 0⟩ =
          Vec3.neg ((normals (α := ℚ)).getD (j : ℕ) ⟨0, 0, 0⟩) →
        faceNumbers.getD (i : ℕ) 0 + faceNumbers.getD (j : ℕ) 0 = 7) := by
  refine ⟨by decide, by decide, by decide, ?_⟩
  decide

/-- C5 witness: the right face (+X, label 1) and the left face (−X, label 6)
have opposite normals and their labels sum to 7. -/
theorem faceNumbers_opposite_sum_seven_witness :
    faceNumbers.getD ((0 : Fin 6) : ℕ) 0 + faceNumbers.getD ((1 : Fin 6) : ℕ) 0 = 7 :=
  faceNumbers_opposite_sum_seven.2.2.2 0 1 (by decide)

/-- C7: for the 180° rotation about the X axis (quaternion (1,0,0,0), top
becomes bottom), `getCurrentValue` returns 5, the label of the bottom face. -/
theorem getCurrentValue_x180_returns_five :
    getCurrentValue (⟨1, 0, 0, 0⟩ : Quat ℝ) = 5 := by
  norm_num [getCurrentValue, applyQuaternion, bestFace, normals, Vec3.dot, faceNumbers]

/-- C8: `getCurrentValue` is deterministic and side-effect free — in the
state-passing translation it returns the mesh state unchanged, a repeated call
on the resulting state yields the identical label, and the label agrees with
the pure function of the quaternion alone. -/
theorem getCurrentValueSt_deterministic_pure (s : MeshState ℝ) :
    (getCurrentValueSt s).2 = s ∧
    (getCurrentValueSt ((getCurrentValueSt s).2)).1 = (getCurrentValueSt s).1 ∧
    (getCurrentValueSt s).1 = getCurrentValue s.quaternion :=
  ⟨rfl, rfl, rfl⟩

/-- C9: `createDiceFaceTexture` is memoized by the key (value, color): a second
call with the same pair returns the identical resource the first call produced
and leaves the texture state (cache and allocation counter) unchanged, so no
new texture is generated. -/
theorem createDiceFaceTexture_memoized (value color : ℕ) (s : TextureState) :
    createDiceFaceTexture value color ((createDiceFaceTexture value color s).2) =
      createDiceFaceTexture value color s := by
  cases h : lookupCache (value, color) s.cache with
  | some t => simp [createDiceFaceTexture, h]
  | none => simp [createDiceFaceTexture, h, generateDiceFaceTextureRes, lookupCache]

/-- C10: for every face value outside {1,…,6}, the pip-drawing switch of
`generateDiceFaceTexture` falls through to the default branch: it logs a
warning and draws exactly the pip layout of face 1 (one centered pip). -/
theorem dicePipPositions_invalid_value_defaults (v : ℚ) (h1 : v ≠ 1) (h2 : v ≠ 2)
    (h3 : v ≠ 3) (h4 : v ≠ 4) (h5 : v ≠ 5) (h6 : v ≠ 6) :
    dicePipPositions v = (true, (dicePipPositions (1 : ℚ)).2) := by
  simp [dicePipPositions, h1, h2, h3, h4, h5, h6]

/-- C10 witness: the invalid face value 7 renders with a warning and the pip
layout of face 1. -/
theorem dicePipPositions_invalid_value_defaults_witness :
    dicePipPositions (7 : ℚ) = (true, (dicePipPositions (1 : ℚ)).2) :=
  dicePipPositions_invalid_value_defaults 7 (by norm_num) (by norm_num) (by norm_num)
    (by norm_num) (by norm_num) (by norm_num)

/-- C6: the per-die body of `rollDice` issues exactly one reset, one linear
impulse and one torque impulse, in that order, with the reset first; the reset
pose is above the floor plane (y = 8 + 2·index > 0) and, per dice.js `reset`,
sets the translation to the given coordinates and both velocities to exactly
zero; and both the impulse and the torque depend on the random draws. -/
theorem rollDice_initiation_sequence (index : ℕ) (r1 r2 r3 r4 r5 r6 : ℚ) (s : BodyState ℚ) :
    (rollDieCmds index r1 r2 r3 r4 r5 r6).countP DiceCmd.isReset = 1 ∧
    (rollDieCmds index r1 r2 r3 r4 r5 r6).countP DiceCmd.isImpulse = 1 ∧
    (rollDieCmds index r1 r2 r3 r4 r5 r6).countP DiceCmd.isTorque = 1 ∧
    (rollDieCmds index r1 r2 r3 r4 r5 r6).head? =
      some (DiceCmd.reset (10 + (index : ℚ) * (1 / 2)) (8 + (index : ℚ) * 2)
        (10 + (index : ℚ) * (3 / 10))) ∧
    (0 : ℚ) < 8 + (index : ℚ) * 2 ∧
    (∀ x y z : ℚ, resetBody s x y z = ⟨⟨x, y, z⟩, ⟨0, 0, 0⟩, ⟨0, 0, 0⟩⟩) ∧
    (rollDieCmds 0 (1 / 2) 0 0 0 0 0 : List (DiceCmd ℚ)).getD 1 (DiceCmd.reset 0 0 0) ≠
      (rollDieCmds 0 0 0 0 0 0 0 : List (DiceCmd ℚ)).getD 1 (DiceCmd.reset 0 0 0) ∧
    (rollDieCmds 0 0 0 0 (1 / 2) 0 0 : List (DiceCmd ℚ)).getD 2 (DiceCmd.reset 0 0 0) ≠
      (rollDieCmds 0 0 0 0 0 0 0 : List (DiceCmd ℚ)).getD 2 (DiceCmd.reset 0 0 0) := by
  have hidx : (0 : ℚ) ≤ (index : ℚ) := Nat.cast_nonneg index
  refine ⟨?_, ?_, ?_, ?_, by linarith, fun x y z => rfl, ?_, ?_⟩ <;>
    simp [rollDieCmds, DiceCmd.isReset, DiceCmd.isImpulse, DiceCmd.isTorque]

/-- C1: code bug in dice.js `getCurrentValue` — the function applies the die's
quaternion to the world-up vector instead of transforming the face normals into
world space (equivalently, instead of applying the inverse rotation). For the
axis-aligned unit quaternion (0, 0, √2/2, √2/2) — the 90° rotation about Z,
which rotates the local +X normal (face labeled 1) exactly onto world-up — the
function returns 6, the label of the opposite (−X) face, not 1. -/
theorem getCurrentValue_z90_returns_opposite_face :
    applyQuaternion qZRot90 ⟨1, 0, 0⟩ = ⟨0, 1, 0⟩ ∧
    qZRot90.x ^ 2 + qZRot90.y ^ 2 + qZRot90.z ^ 2 + qZRot90.w ^ 2 = 1 ∧
    getCurrentValue qZRot90 = 6 := by
  have hs : Real.sqrt 2 * Real.sqrt 2 = 2 := Real.mul_self_sqrt (by norm_num)
  have hup : applyQuaternion qZRot90 ⟨0, 1, 0⟩ = ⟨-1, 0, 0⟩ := by
    simp only [qZRot90, applyQuaternion, Vec3.mk.injEq]
    refine ⟨?_, ?_, ?_⟩ <;> nlinarith [hs]
  refine ⟨?_, ?_, ?_⟩
  · simp only [qZRot90, applyQuaternion, Vec3.mk.injEq]
    refine ⟨?_, ?_, ?_⟩ <;> nlinarith [hs]
  · simp only [qZRot90]
    nlinarith [hs]
  · show faceNumbers.getD (bestFace (applyQuaternion qZRot90 ⟨0, 1, 0⟩) normals 0 (-1) 0) 0 = 6
    rw [hup]
    norm_num [bestFace, normals, Vec3.dot, faceNumbers]

/-- C3 counterexample: at the unit quaternion `qTieX135` the bottom face
(scan index 3, label 5) and the front face (scan index 4, label 3) attain the
numerically equal maximum alignment, every other face is strictly below it, yet
`getCurrentValue` returns 5 — not 3, the lowest label among the tied maximum. -/
theorem getCurrentValue_tie_returns_five_not_three :
    qTieX135.x ^ 2 + qTieX135.y ^ 2 + qTieX135.z ^ 2 + qTieX135.w ^ 2 = 1 ∧
    faceAlignment qTieX135 3 = faceAlignment qTieX135 4 ∧
    faceAlignment qTieX135 0 < faceAlignment qTieX135 3 ∧
    faceAlignment qTieX135 1 < faceAlignment qTieX135 3 ∧
    faceAlignment qTieX135 2 < faceAlignment qTieX135 3 ∧
    faceAlignment qTieX135 5 < faceAlignment qTieX135 3 ∧
    faceNumbers.getD 3 0 = 5 ∧ faceNumbers.getD 4 0 = 3 ∧
    getCurrentValue qTieX135 = 5 := by
  have hs : Real.sqrt 2 * Real.sqrt 2 = 2 := Real.mul_self_sqrt (by norm_num)
  have hpos : 0 < Real.sqrt 2 := Real.sqrt_pos.mpr (by norm_num)
  have hle : Real.sqrt 2 ≤ 2 := by nlinarith
  have ha : Real.sqrt (2 + Real.sqrt 2) * Real.sqrt (2 + Real.sqrt 2) = 2 + Real.sqrt 2 :=
    Real.mul_self_sqrt (by positivity)
  have hd : Real.sqrt (2 - Real.sqrt 2) * Real.sqrt (2 - Real.sqrt 2) = 2 - Real.sqrt 2 :=
    Real.mul_self_sqrt (by linarith)
  have hmul : (2 + Real.sqrt 2) * (2 - Real.sqrt 2) = 2 := by nlinarith
  have had : Real.sqrt (2 + Real.sqrt 2) * Real.sqrt (2 - Real.sqrt 2) = Real.sqrt 2 := by
    rw [← Real.sqrt_mul (by positivity), hmul]
  have hup : applyQuaternion qTieX135 ⟨0, 1, 0⟩ = ⟨0, -(Real.sqrt 2 / 2), Real.sqrt 2 / 2⟩ := by
    simp only [qTieX135, applyQuaternion, Vec3.mk.injEq]
    refine ⟨by ring, ?_, ?_⟩ <;> nlinarith [ha, hd, had]
  refine ⟨?_, ?_, ?_, ?_, ?_, ?_, rfl, rfl, ?_⟩
  · simp only [qTieX135]; nlinarith [ha, hd]
  · show Vec3.dot (applyQuaternion qTieX135 ⟨0, 1, 0⟩) ⟨0, -1, 0⟩ =
      Vec3.dot (applyQuaternion qTieX135 ⟨0, 1, 0⟩) ⟨0, 0, 1⟩
    rw [hup]; simp [Vec3.dot]
  · show Vec3.dot (applyQuaternion qTieX135 ⟨0, 1, 0⟩) ⟨1, 0, 0⟩ <
      Vec3.dot (applyQuaternion qTieX135 ⟨0, 1, 0⟩) ⟨0, -1, 0⟩
    rw [hup]; simp [Vec3.dot]
  · show Vec3.dot (applyQuaternion qTieX135 ⟨0, 1, 0⟩) ⟨-1, 0, 0⟩ <
      Vec3.dot (applyQuaternion qTieX135 ⟨0, 1, 0⟩) ⟨0, -1, 0⟩
    rw [hup]; simp [Vec3.dot]
  · show Vec3.dot (applyQuaternion qTieX135 ⟨0, 1, 0⟩) ⟨0, 1, 0⟩ <
      Vec3.dot (applyQuaternion qTieX135 ⟨0, 1, 0⟩) ⟨0, -1, 0⟩
    rw [hup]; simp [Vec3.dot]
  · show Vec3.dot (applyQuaternion qTieX135 ⟨0, 1, 0⟩) ⟨0, 0, -1⟩ <
      Vec3.dot (applyQuaternion qTieX135 ⟨0, 1, 0⟩) ⟨0, -1, 0⟩
    rw [hup]; simp [Vec3.dot]
  · show faceNumbers.getD
      (bestFace (applyQuaternion qTieX135 ⟨0, 1, 0⟩) normals 0 (-1) 0) 0 = 5
    rw [hup]
    have d0 : Vec3.dot (⟨0, -(Real.sqrt 2 / 2), Real.sqrt 2 / 2⟩ : Vec3 ℝ) ⟨1, 0, 0⟩ = 0 := by
      simp [Vec3.dot]
    have d1 : Vec3.dot (⟨0, -(Real.sqrt 2 / 2), Real.sqrt 2 / 2⟩ : Vec3 ℝ) ⟨-1, 0, 0⟩ = 0 := by
      simp [Vec3.dot]
    have d2 : Vec3.dot (⟨0, -(Real.sqrt 2 / 2), Real.sqrt 2 / 2⟩ : Vec3 ℝ) ⟨0, 1, 0⟩ =
        -(Real.sqrt 2 / 2) := by simp [Vec3.dot]
    have d3 : Vec3.dot (⟨0, -(Real.sqrt 2 / 2), Real.sqrt 2 / 2⟩ : Vec3 ℝ) ⟨0, -1, 0⟩ =
        Real.sqrt 2 / 2 := by simp [Vec3.dot]
    have d4 : Vec3.dot (⟨0, -(Real.sqrt 2 / 2), Real.sqrt 2 / 2⟩ : Vec3 ℝ) ⟨0, 0, 1⟩ =
        Real.sqrt 2 / 2 := by simp [Vec3.dot]
    have d5 : Vec3.dot (⟨0, -(Real.sqrt 2 / 2), Real.sqrt 2 / 2⟩ : Vec3 ℝ) ⟨0, 0, -1⟩ =
        -(Real.sqrt 2 / 2) := by simp [Vec3.dot]
    simp only [normals]
    rw [bestFace, d0, if_pos (show (-1 : ℝ) < 0 by norm_num)]
    rw [bestFace, d1, if_neg (show ¬ ((0 : ℝ) < 0) by norm_num)]
    rw [bestFace, d2, if_neg (show ¬ ((0 : ℝ) < -(Real.sqrt 2 / 2)) by linarith)]
    rw [bestFace, d3, if_pos (show (0 : ℝ) < Real.sqrt 2 / 2 by linarith)]
    rw [bestFace, d4, if_neg (show ¬ (Real.sqrt 2 / 2 < Real.sqrt 2 / 2) by norm_num)]
    rw [bestFace, d5, if_neg (show ¬ (Real.sqrt 2 / 2 < -(Real.sqrt 2 / 2)) by linarith)]
    rw [bestFace]
    rfl

/-- Helper: if no element of the remaining list strictly improves on the
carried maximum, the scan returns the carried index unchanged. -/
theorem bestFace_no_improve (up : Vec3 ℝ) :
    ∀ (l : List (Vec3 ℝ)) (idx : ℕ) (maxA : ℝ) (fi : ℕ),
      (∀ n ∈ l, ¬ maxA < Vec3.dot up n) → bestFace up l idx maxA fi = fi := by
  intro l
  induction l with
  | nil => intro idx maxA fi _; rfl
  | cons head tail ih =>
      intro idx maxA fi h
      rw [bestFace, if_neg (h head (List.mem_cons_self head tail))]
      exact ih (idx + 1) maxA fi fun n hn => h n (List.mem_cons_of_mem head hn)

/-- Helper: walking a prefix whose alignments all stay below a bound `b`
(starting from a carried maximum below `b`) leaves the scan at the position
after the prefix with some carried maximum still below `b`. -/
theorem bestFace_append (up : Vec3 ℝ) (b : ℝ) :
    ∀ (l1 l2 : List (Vec3 ℝ)) (idx : ℕ) (maxA : ℝ) (fi : ℕ),
      maxA < b → (∀ n ∈ l1, Vec3.dot up n < b) →
      ∃ maxA' fi', bestFace up (l1 ++ l2) idx maxA fi =
          bestFace up l2 (idx + l1.length) maxA' fi' ∧ maxA' < b := by
  intro l1
  induction l1 with
  | nil => intro l2 idx maxA fi hm _; exact ⟨maxA, fi, by simp, hm⟩
  | cons head tail ih =>
      intro l2 idx maxA fi hm hl
      have hhead : Vec3.dot up head < b := hl head (List.mem_cons_self head tail)
      have htail : ∀ n ∈ tail, Vec3.dot up n < b :=
        fun n hn => hl n (List.mem_cons_of_mem head hn)
      have hidx : idx + 1 + tail.length = idx + (head :: tail).length := by
        simp; omega
      rw [List.cons_append, bestFace]
      by_cases hc : maxA < Vec3.dot up head
      · rw [if_pos hc]
        obtain ⟨m', f', heq, hlt⟩ := ih l2 (idx + 1) (Vec3.dot up head) idx hhead htail
        exact ⟨m', f', by rw [heq, hidx], hlt⟩
      · rw [if_neg hc]
        obtain ⟨m', f', heq, hlt⟩ := ih l2 (idx + 1) maxA fi hm htail
        exact ⟨m', f', by rw [heq, hidx], hlt⟩

/-- Helper: the scan started at `(-1, 0)` returns the position of `nj` whenever
every face before `nj` is strictly below `nj`'s alignment and every face after
it is at most `nj`'s alignment (first-argmax behaviour of the forEach loop). -/
theorem bestFace_first_argmax (up : Vec3 ℝ) (l1 l2 : List (Vec3 ℝ)) (nj : Vec3 ℝ)
    (hm : (-1 : ℝ) < Vec3.dot up nj)
    (hl1 : ∀ n ∈ l1, Vec3.dot up n < Vec3.dot up nj)
    (hl2 : ∀ n ∈ l2, Vec3.dot up n ≤ Vec3.dot up nj) :
    bestFace up (l1 ++ nj :: l2) 0 (-1) 0 = l1.length := by
  obtain ⟨m', f', heq, hlt⟩ := bestFace_append up (Vec3.dot up nj) l1 (nj :: l2) 0 (-1) 0 hm hl1
  rw [heq, bestFace, if_pos hlt,
    bestFace_no_improve up l2 _ _ _ (fun n hn => not_lt.mpr (hl2 n hn))]
  omega

/-- C3 amended: when face index `j` is the first index in the fixed scan order
(+X, −X, +Y, −Y, +Z, −Z) attaining the maximum alignment (all earlier faces are
strictly below it, all faces are at most it), `getCurrentValue` returns
`faceNumbers[j]` — the label of the earliest tied face in scan order, not the
lowest tied label. -/
theorem getCurrentValue_first_scan_argmax (q : Quat ℝ) (j : ℕ) (hj : j < 6)
    (hmax : ∀ i, i < 6 → faceAlignment q i ≤ faceAlignment q j)
    (hfirst : ∀ i, i < j → faceAlignment q i < faceAlignment q j) :
    getCurrentValue q = faceNumbers.getD j 0 := by
  have h0 := hmax 0 (by norm_num)
  have h1 := hmax 1 (by norm_num)
  have h2 := hmax 2 (by norm_num)
  have h3 := hmax 3 (by norm_num)
  have h4 := hmax 4 (by norm_num)
  have h5 := hmax 5 (by norm_num)
  have hjpos : (-1 : ℝ) < faceAlignment q j := by
    have g0 : Vec3.dot (applyQuaternion q ⟨0, 1, 0⟩) (⟨1, 0, 0⟩ : Vec3 ℝ) ≤
        faceAlignment q j := h0
    have g1 : Vec3.dot (applyQuaternion q ⟨0, 1, 0⟩) (⟨-1, 0, 0⟩ : Vec3 ℝ) ≤
        faceAlignment q j := h1
    simp only [Vec3.dot] at g0 g1
    nlinarith [g0, g1]
  show faceNumbers.getD (bestFace (applyQuaternion q ⟨0, 1, 0⟩) normals 0 (-1) 0) 0 =
    faceNumbers.getD j 0
  interval_cases j
  · rw [show (normals : List (Vec3 ℝ)) =
        [] ++ (⟨1, 0, 0⟩ : Vec3 ℝ) :: [⟨-1, 0, 0⟩, ⟨0, 1, 0⟩, ⟨0, -1, 0⟩, ⟨0, 0, 1⟩, ⟨0, 0, -1⟩]
        from rfl,
      bestFace_first_argmax (applyQuaternion q ⟨0, 1, 0⟩)
        [] [⟨-1, 0, 0⟩, ⟨0, 1, 0⟩, ⟨0, -1, 0⟩, ⟨0, 0, 1⟩, ⟨0, 0, -1⟩] ⟨1, 0, 0⟩ hjpos
        (by intro n hn; fin_cases hn)
        (by intro n hn; fin_cases hn
            · exact h1
            · exact h2
            · exact h3
            · exact h4
            · exact h5)]
    rfl
  · rw [show (normals : List (Vec3 ℝ)) =
        [⟨1, 0, 0⟩] ++ (⟨-1, 0, 0⟩ : Vec3 ℝ) :: [⟨0, 1, 0⟩, ⟨0, -1, 0⟩, ⟨0, 0, 1⟩, ⟨0, 0, -1⟩]
        from rfl,
      bestFace_first_argmax (applyQuaternion q ⟨0, 1, 0⟩)
        [⟨1, 0, 0⟩] [⟨0, 1, 0⟩, ⟨0, -1, 0⟩, ⟨0, 0, 1⟩, ⟨0, 0, -1⟩] ⟨-1, 0, 0⟩ hjpos
        (by intro n hn; fin_cases hn
            · exact hfirst 0 (by norm_num))
        (by intro n hn; fin_cases hn
            · exact h2
            · exact h3
            · exact h4
            · exact h5)]
    rfl
  · rw [show (normals : List (Vec3 ℝ)) =
        [⟨1, 0, 0⟩, ⟨-1, 0, 0⟩] ++ (⟨0, 1, 0⟩ : Vec3 ℝ) :: [⟨0, -1, 0⟩, ⟨0, 0, 1⟩, ⟨0, 0, -1⟩]
        from rfl,
      bestFace_first_argmax (applyQuaternion q ⟨0, 1, 0⟩)
        [⟨1, 0, 0⟩, ⟨-1, 0, 0⟩] [⟨0, -1, 0⟩, ⟨0, 0, 1⟩, ⟨0, 0, -1⟩] ⟨0, 1, 0⟩ hjpos
        (by intro n hn; fin_cases hn
            · exact hfirst 0 (by norm_num)
            · exact hfirst 1 (by norm_num))
        (by intro n hn; fin_cases hn
            · exact h3
            · exact h4
            · exact h5)]
    rfl
  · rw [show (normals : List (Vec3 ℝ)) =
        [⟨1, 0, 0⟩, ⟨-1, 0, 0⟩, ⟨0, 1, 0⟩] ++ (⟨0, -1, 0⟩ : Vec3 ℝ) :: [⟨0, 0, 1⟩, ⟨0, 0, -1⟩]
        from rfl,
      bestFace_first_argmax (applyQuaternion q ⟨0, 1, 0⟩)
        [⟨1, 0, 0⟩, ⟨-1, 0, 0⟩, ⟨0, 1, 0⟩] [⟨0, 0, 1⟩, ⟨0, 0, -1⟩] ⟨0, -1, 0⟩ hjpos
        (by intro n hn; fin_cases hn
            · exact hfirst 0 (by norm_num)
            · exact hfirst 1 (by norm_num)
            · exact hfirst 2 (by norm_num))
        (by intro n hn; fin_cases hn
            · exact h4
            · exact h5)]
    rfl
  · rw [show (normals : List (Vec3 ℝ)) =
        [⟨1, 0, 0⟩, ⟨-1, 0, 0⟩, ⟨0, 1, 0⟩, ⟨0, -1, 0⟩] ++ (⟨0, 0, 1⟩ : Vec3 ℝ) :: [⟨0, 0, -1⟩]
        from rfl,
      bestFace_first_argmax (applyQuaternion q ⟨0, 1, 0⟩)
        [⟨1, 0, 0⟩, ⟨-1, 0, 0⟩, ⟨0, 1, 0⟩, ⟨0, -1, 0⟩] [⟨0, 0, -1⟩] ⟨0, 0, 1⟩ hjpos
        (by intro n hn; fin_cases hn
            · exact hfirst 0 (by norm_num)
            · exact hfirst 1 (by norm_num)
            · exact hfirst 2 (by norm_num)
            · exact hfirst 3 (by norm_num))
        (by intro n hn; fin_cases hn
            · exact h5)]
    rfl
  · rw [show (normals : List (Vec3 ℝ)) =
        [⟨1, 0, 0⟩, ⟨-1, 0, 0⟩, ⟨0, 1, 0⟩, ⟨0, -1, 0⟩, ⟨0, 0, 1⟩] ++ (⟨0, 0, -1⟩ : Vec3 ℝ) :: []
        from rfl,
      bestFace_first_argmax (applyQuaternion q ⟨0, 1, 0⟩)
        [⟨1, 0, 0⟩, ⟨-1, 0, 0⟩, ⟨0, 1, 0⟩, ⟨0, -1, 0⟩, ⟨0, 0, 1⟩] [] ⟨0, 0, -1⟩ hjpos
        (by intro n hn; fin_cases hn
            · exact hfirst 0 (by norm_num)
            · exact hfirst 1 (by norm_num)
            · exact hfirst 2 (by norm_num)
            · exact hfirst 3 (by norm_num)
            · exact hfirst 4 (by norm_num))
        (by intro n hn; fin_cases hn)]
    rfl

/-- C3 amended witness: at the identity orientation the top face (scan index 2)
is the unique maximum, and `getCurrentValue` returns `faceNumbers[2] = 2`. -/
theorem getCurrentValue_first_scan_argmax_witness :
    getCurrentValue (⟨0, 0, 0, 1⟩ : Quat ℝ) = faceNumbers.getD 2 0 :=
  getCurrentValue_first_scan_argmax ⟨0, 0, 0, 1⟩ 2 (by norm_num)
    (by intro i hi
        interval_cases i <;>
          norm_num [faceAlignment, normals, applyQuaternion, Vec3.dot, List.getD])
    (by intro i hi
        interval_cases i <;>
          norm_num [faceAlignment, normals, applyQuaternion, Vec3.dot, List.getD])

end NeonDice
